import Mathlib

/-!
Verification of `ping.py`, a daily availability checker.

The program is embedded shallowly:

* Times are naive local wall-clock instants measured in microseconds since an
  epoch midnight, as natural numbers.  Python `datetime`/`timedelta`
  arithmetic is exact at microsecond resolution; `total_seconds()` only
  rescales by 10^6, which preserves sign, order and `min`, so every comparison
  the program makes on seconds is faithfully made here on microseconds.
* `requests.get` is modelled by its possible outcomes (a response with a
  status code and a body, or a raised `Timeout` / `ConnectionError` / other
  `RequestException`); `Response.raise_for_status()` raises `HTTPError`
  exactly for status codes 400-599.
* The unbounded `while` loops are simulated with explicit fuel; running out
  of fuel means "the loop is still running", not termination.
* Python `str.split(",")` and `str.strip()` are modelled executably on the
  character list of the string.
-/

namespace Ping

/-! ### Configuration loading (ping.py lines 13-17) -/

/-- Python `str.split(",")`: cut the character list at every comma, keeping
empty pieces (so `""` yields one empty piece and `"a,,b"` yields three). -/
def pySplit : List Char → List (List Char)
  | [] => [[]]
  | c :: cs =>
    if c = ',' then [] :: pySplit cs
    else
      match pySplit cs with
      | [] => [[c]]
      | g :: gs => (c :: g) :: gs

/-- Python `str.strip()`: drop leading and trailing whitespace characters. -/
def pyStrip (s : List Char) : List Char :=
  ((s.dropWhile Char.isWhitespace).reverse.dropWhile Char.isWhitespace).reverse

/-- Default value of the `API_URLS` environment variable (line 13). -/
def defaultRawUrls : String := "https://your-api-endpoint.com/ping"

/-- Line 14: `[u.strip() for u in _raw_urls.split(",") if u.strip()]` — strip
each comma-separated entry and keep the non-empty results, in order. -/
def parseUrls (raw : String) : List String :=
  (((pySplit raw.data).map pyStrip).filter (fun u => !u.isEmpty)).map String.mk

/-- Lines 13-14: `API_URLS` as a function of the environment variable. -/
def apiUrlsFrom (env : Option String) : List String :=
  parseUrls (env.getD defaultRawUrls)

/-- Line 15: `LOG_FILE`. -/
def logFileFrom (env : Option String) : String :=
  env.getD "ping_log.txt"

/-- Python `int(os.getenv(name, d))` with integer default `d`: when the
variable is unset the default integer is used; when set, the string is parsed
as a decimal integer (which can fail). -/
def intEnv (d : Int) (env : Option String) : Option Int :=
  match env with
  | none => some d
  | some s => s.toInt?

/-- Line 16: `RETRY_INTERVAL_SECONDS`. -/
def retryIntervalFrom (env : Option String) : Option Int := intEnv 3600 env

/-- Line 17: `REQUEST_TIMEOUT_SECONDS`. -/
def requestTimeoutFrom (env : Option String) : Option Int := intEnv 30 env

/-- The spec's wording for `API_URLS` parsing, for comparison with the code's
`parseUrls`: go through the comma-separated entries in order, trim the
surrounding whitespace of each, discard those that are empty (or
whitespace-only, which trimming makes empty), and keep the rest. -/
def specUrlEntries (raw : String) : List String :=
  (pySplit raw.data).foldr
    (fun e acc => if (pyStrip e).isEmpty then acc else String.mk (pyStrip e) :: acc) []

/-! ### The endpoint prober `call_api` (ping.py lines 33-49) -/

/-- Possible outcomes of one `requests.get` call: a response (status code and
body) or one of the raised `requests` exceptions. -/
inductive ReqResult where
  | timeout
  | connectionError (msg : String)
  | response (status : Nat) (body : String)
  | otherError (msg : String)

/-- The `requests` exceptions distinguished by the `except` clauses of
`call_api`: `Timeout`, `ConnectionError`, `HTTPError` (from
`raise_for_status`), and any other `RequestException`. -/
inductive ReqError where
  | timeout
  | connectionError (msg : String)
  | httpError (status : Nat)
  | requestError (msg : String)

/-- `Response.raise_for_status()`: raises `HTTPError` exactly for the client-
and server-error status codes 400-599; any other status returns normally. -/
def raiseForStatus (status : Nat) : Except ReqError Unit :=
  if 400 ≤ status ∧ status < 600 then Except.error (ReqError.httpError status)
  else Except.ok ()

/-- The `try:` block of `call_api` (lines 36-40): perform the GET — each
failure raises the corresponding exception — then `raise_for_status()`, then
`return True`.  The response body is never consulted. -/
def tryBody (r : ReqResult) : Except ReqError Bool :=
  match r with
  | .timeout => Except.error ReqError.timeout
  | .connectionError m => Except.error (ReqError.connectionError m)
  | .otherError m => Except.error (ReqError.requestError m)
  | .response status _body =>
    match raiseForStatus status with
    | .error e => Except.error e
    | .ok _ => Except.ok true

/-- `call_api` (lines 33-49): the four `except` clauses catch every raised
`requests` exception — `HTTPError` and the rest are all subclasses of
`RequestException` — log it, and fall through to `return False`. -/
def call_api (r : ReqResult) : Bool :=
  match tryBody r with
  | .ok b => b
  | .error ReqError.timeout => false
  | .error (ReqError.connectionError _) => false
  | .error (ReqError.httpError _) => false
  | .error (ReqError.requestError _) => false

/-! ### Timing of one probe (ping.py line 37)

`requests.get(url, timeout=REQUEST_TIMEOUT_SECONDS)` is issued with the
configured bounded timeout.  The library's timeout contract is modelled
explicitly: against an endpoint whose full answer would take `naturalUs`
microseconds, a call with timeout `timeoutUs` returns the answer when it is in
time and raises `Timeout` otherwise, and in either case occupies at most
`min naturalUs timeoutUs` microseconds. -/

/-- Outcome of `requests.get` with a timeout against an endpoint that would
naturally take `naturalUs` microseconds to answer `r`. -/
def getWithTimeout (timeoutUs : Nat) (naturalUs : Nat) (r : ReqResult) : ReqResult :=
  if timeoutUs < naturalUs then ReqResult.timeout else r

/-- Duration (μs) of that `requests.get` call. -/
def getElapsedUs (timeoutUs : Nat) (naturalUs : Nat) : Nat :=
  min naturalUs timeoutUs

/-- Duration (μs) of one probe: line 37 passes `timeout=REQUEST_TIMEOUT_SECONDS`
(seconds), never an unbounded `None`. -/
def probeElapsedUs (cfgTimeoutS : Nat) (naturalUs : Nat) : Nat :=
  getElapsedUs (cfgTimeoutS * 1000000) naturalUs

/-! ### The daily-boundary calculator (ping.py lines 52-58) -/

/-- Microseconds in one day. -/
def usecPerDay : Nat := 86400000000

/-- `seconds_until_next_midnight` (lines 52-58), with the current naive local
time given as `now` microseconds since an epoch midnight and the result in
microseconds.  `now + timedelta(days=1)` falls on day `(now + usecPerDay) / usecPerDay`;
`.replace(hour=0, minute=0, second=0, microsecond=0)` is that day's midnight;
the function returns `tomorrow_midnight - now`. -/
def usecUntilNextMidnight (now : Nat) : Int :=
  ((now : Int) + (usecPerDay : Int)) / (usecPerDay : Int) * (usecPerDay : Int) - (now : Int)

/-! ### The scheduler loop `run` (ping.py lines 61-107) -/

/-- Lines 81-84: the URLs of `pending` whose probe failed this pass, kept in
their original order (`still_failing`). -/
def stillFailing (ok : String → Bool) (pending : List String) : List String :=
  pending.filter (fun u => !(ok u))

/-- How a simulated daily cycle came to stop. -/
inductive CycleEnd where
  | allSuccess
  | abandoned
  | outOfFuel
deriving DecidableEq

/-- Observable record of one daily cycle: the list of URLs attempted by each
pass (in order), the retry waits slept between passes (μs), and how the cycle
stopped.  `outOfFuel` means the retry loop was still running when the
simulation bound was reached. -/
structure CycleRun where
  passes : List (List String)
  sleeps : List Int
  ending : CycleEnd
deriving DecidableEq

/-- The inner retry loop of `run` (lines 78-107), one daily cycle.
`ok i u` tells whether the GET of url `u` during pass `i` succeeds (pass `i`
is logged as attempt `#(i+1)`); `nowAt i` is the naive local time (μs) at
which line 93 recomputes the remaining time after pass `i`; `retryUs` is
`RETRY_INTERVAL_SECONDS` in microseconds; `fuel` bounds how many passes are
simulated.  Entered from line 75 with `pending` = the full configured list. -/
def runCycle (ok : Nat → String → Bool) (nowAt : Nat → Nat) (retryUs : Int) :
    Nat → List String → Nat → CycleRun
  | 0, _, _ => ⟨[], [], CycleEnd.outOfFuel⟩
  | fuel + 1, pending, i =>
    if pending.isEmpty then ⟨[], [], CycleEnd.allSuccess⟩
    else if (stillFailing (ok i) pending).isEmpty then
      ⟨[pending], [], CycleEnd.allSuccess⟩
    else if usecUntilNextMidnight (nowAt i) ≤ 0 then
      ⟨[pending], [], CycleEnd.abandoned⟩
    else
      ⟨pending :: (runCycle ok nowAt retryUs fuel (stillFailing (ok i) pending) (i + 1)).passes,
       min retryUs (usecUntilNextMidnight (nowAt i))
         :: (runCycle ok nowAt retryUs fuel (stillFailing (ok i) pending) (i + 1)).sleeps,
       (runCycle ok nowAt retryUs fuel (stillFailing (ok i) pending) (i + 1)).ending⟩

/-! ### Helper lemmas -/

/-- The remaining time to the next midnight is always strictly positive. -/
theorem usec_pos (t : Nat) : 0 < usecUntilNextMidnight t := by
  simp only [usecUntilNextMidnight, usecPerDay]
  omega

/-- The remaining time to the next midnight is at most one day. -/
theorem usec_le_day (t : Nat) : usecUntilNextMidnight t ≤ (usecPerDay : Int) := by
  simp only [usecUntilNextMidnight, usecPerDay]
  omega

/-- Adding the remaining time to the current instant lands on a day boundary. -/
theorem usec_add_mod (t : Nat) :
    ((t : Int) + usecUntilNextMidnight t) % (usecPerDay : Int) = 0 := by
  simp only [usecUntilNextMidnight, usecPerDay]
  omega

/-- That day boundary is the earliest one strictly after the current instant. -/
theorem usec_next (t : Nat) (m : Int) (hlt : (t : Int) < m)
    (hm : m % (usecPerDay : Int) = 0) :
    (t : Int) + usecUntilNextMidnight t ≤ m := by
  simp only [usecUntilNextMidnight, usecPerDay] at *
  omega

/-- A pass keeps a subsequence of what it attempted. -/
theorem stillFailing_sublist (ok : String → Bool) (l : List String) :
    List.Sublist (stillFailing ok l) l :=
  List.filter_sublist l

/-- A cycle never stops through the midnight-abandonment branch: the line-94
test `time_to_midnight <= 0` is never true. -/
theorem runCycle_ending (ok : Nat → String → Bool) (nowAt : Nat → Nat) (retryUs : Int) :
    ∀ (fuel : Nat) (pending : List String) (i : Nat),
      (runCycle ok nowAt retryUs fuel pending i).ending = CycleEnd.allSuccess
        ∨ (runCycle ok nowAt retryUs fuel pending i).ending = CycleEnd.outOfFuel := by
  intro fuel
  induction fuel with
  | zero => intro pending i; right; rfl
  | succ fuel ih =>
    intro pending i
    rw [runCycle]
    split
    · left; rfl
    · split
      · left; rfl
      · split
        · rename_i hle
          exact absurd (usec_pos (nowAt i)) (by omega)
        · exact ih (stillFailing (ok i) pending) (i + 1)

/-- Whatever pass a cycle performs first, it attempts exactly the pending list
the cycle was entered with. -/
theorem runCycle_zero_eq (ok : Nat → String → Bool) (nowAt : Nat → Nat) (retryUs : Int)
    (fuel : Nat) (pending : List String) (i : Nat) (a : List String)
    (h : (runCycle ok nowAt retryUs fuel pending i).passes[0]? = some a) :
    a = pending := by
  cases fuel with
  | zero => simp [runCycle] at h
  | succ fuel =>
    rw [runCycle] at h
    split at h
    · simp at h
    · split at h
      · simpa using h.symm
      · split at h
        · simpa using h.symm
        · simpa using h.symm

/-- A non-empty pending list and non-zero fuel guarantee a first pass, and it
attempts the full entry pending list. -/
theorem runCycle_zero_some (ok : Nat → String → Bool) (nowAt : Nat → Nat) (retryUs : Int)
    (fuel : Nat) (pending : List String) (i : Nat)
    (hp : pending ≠ []) (hf : fuel ≠ 0) :
    (runCycle ok nowAt retryUs fuel pending i).passes[0]? = some pending := by
  cases fuel with
  | zero => exact absurd rfl hf
  | succ fuel =>
    rw [runCycle]
    split
    · rename_i he
      exact absurd (List.isEmpty_iff.mp he) hp
    · split
      · simp
      · split
        · simp
        · simp

/-- Each later pass attempts exactly the failures of the pass before it. -/
theorem runCycle_succ_eq (ok : Nat → String → Bool) (nowAt : Nat → Nat) (retryUs : Int) :
    ∀ (fuel : Nat) (pending : List String) (i j : Nat) (a b : List String),
      (runCycle ok nowAt retryUs fuel pending i).passes[j]? = some a →
      (runCycle ok nowAt retryUs fuel pending i).passes[j + 1]? = some b →
      b = stillFailing (ok (i + j)) a := by
  intro fuel
  induction fuel with
  | zero => intro pending i j a b h1 h2; simp [runCycle] at h1
  | succ fuel ih =>
    intro pending i j a b h1 h2
    by_cases hp : pending.isEmpty = true
    · rw [runCycle, if_pos hp] at h1
      simp at h1
    · by_cases hs : (stillFailing (ok i) pending).isEmpty = true
      · rw [runCycle, if_neg hp, if_pos hs] at h2
        simp at h2
      · by_cases ht : usecUntilNextMidnight (nowAt i) ≤ 0
        · exact absurd (usec_pos (nowAt i)) (by omega)
        · rw [runCycle, if_neg hp, if_neg hs, if_neg ht] at h1 h2
          rw [List.getElem?_cons_succ] at h2
          cases j with
          | zero =>
            simp only [List.getElem?_cons_zero, Option.some.injEq] at h1
            subst h1
            rw [Nat.add_zero]
            exact runCycle_zero_eq ok nowAt retryUs fuel _ (i + 1) b h2
          | succ j =>
            rw [List.getElem?_cons_succ] at h1
            have := ih (stillFailing (ok i) pending) (i + 1) j a b h1 h2
            rw [show i + 1 + j = i + (j + 1) by omega] at this
            exact this

/-- Every pass of a cycle attempts a subsequence of the entry pending list. -/
theorem runCycle_sublist (ok : Nat → String → Bool) (nowAt : Nat → Nat) (retryUs : Int) :
    ∀ (fuel : Nat) (pending : List String) (i j : Nat) (a : List String),
      (runCycle ok nowAt retryUs fuel pending i).passes[j]? = some a →
      List.Sublist a pending := by
  intro fuel
  induction fuel with
  | zero => intro pending i j a h; simp [runCycle] at h
  | succ fuel ih =>
    intro pending i j a h
    rw [runCycle] at h
    split at h
    · simp at h
    · split at h
      · cases j with
        | zero =>
          simp only [List.getElem?_cons_zero, Option.some.injEq] at h
          exact h ▸ List.Sublist.refl pending
        | succ j => simp at h
      · split at h
        · cases j with
          | zero =>
            simp only [List.getElem?_cons_zero, Option.some.injEq] at h
            exact h ▸ List.Sublist.refl pending
          | succ j => simp at h
        · cases j with
          | zero =>
            simp only [List.getElem?_cons_zero, Option.some.injEq] at h
            exact h ▸ List.Sublist.refl pending
          | succ j =>
            rw [List.getElem?_cons_succ] at h
            exact (ih (stillFailing (ok i) pending) (i + 1) j a h).trans
              (stillFailing_sublist (ok i) pending)

/-- The wait slept after pass `j` is `min retryUs` (remaining time to midnight
recomputed at that decision point). -/
theorem runCycle_sleeps_eq (ok : Nat → String → Bool) (nowAt : Nat → Nat) (retryUs : Int) :
    ∀ (fuel : Nat) (pending : List String) (i j : Nat) (w : Int),
      (runCycle ok nowAt retryUs fuel pending i).sleeps[j]? = some w →
      w = min retryUs (usecUntilNextMidnight (nowAt (i + j))) := by
  intro fuel
  induction fuel with
  | zero => intro pending i j w h; simp [runCycle] at h
  | succ fuel ih =>
    intro pending i j w h
    rw [runCycle] at h
    split at h
    · simp at h
    · split at h
      · simp at h
      · split at h
        · simp at h
        · cases j with
          | zero =>
            simp only [List.getElem?_cons_zero, Option.some.injEq] at h
            rw [Nat.add_zero]
            exact h.symm
          | succ j =>
            rw [List.getElem?_cons_succ] at h
            have := ih (stillFailing (ok i) pending) (i + 1) j w h
            rw [show i + 1 + j = i + (j + 1) by omega] at this
            exact this

/-- With every probe failing, the retry loop never stops: whatever the
simulation bound, it is still running when the bound is reached. -/
theorem runCycle_all_fail (ok : Nat → String → Bool) (nowAt : Nat → Nat) (retryUs : Int)
    (hok : ∀ n u, ok n u = false) :
    ∀ (fuel : Nat) (pending : List String) (i : Nat), pending ≠ [] →
      (runCycle ok nowAt retryUs fuel pending i).ending = CycleEnd.outOfFuel := by
  intro fuel
  induction fuel with
  | zero => intro pending i _; rfl
  | succ fuel ih =>
    intro pending i hp
    have hstill : stillFailing (ok i) pending = pending :=
      List.filter_eq_self.mpr (fun a _ => by simp [hok i a])
    rw [runCycle]
    split
    · rename_i he
      exact absurd (List.isEmpty_iff.mp he) hp
    · split
      · rename_i he
        rw [hstill] at he
        exact absurd (List.isEmpty_iff.mp he) hp
      · split
        · rename_i hle
          exact absurd (usec_pos (nowAt i)) (by omega)
        · rw [hstill]
          exact ih pending (i + 1) hp

/-- Pushing the strip-then-filter list comprehension of line 14 through a
fold: the kept entries are exactly the comma-separated entries that are
non-empty after stripping, each kept in stripped form, in order. -/
theorem filter_strip_foldr (l : List (List Char)) :
    ((l.map pyStrip).filter (fun u => !u.isEmpty)).map String.mk
      = l.foldr
          (fun e acc => if (pyStrip e).isEmpty then acc else String.mk (pyStrip e) :: acc)
          [] := by
  induction l with
  | nil => rfl
  | cons a l ih =>
    simp only [List.map_cons, List.filter_cons, List.foldr_cons]
    cases h : (pyStrip a).isEmpty with
    | true => simp [h, ih]
    | false => simp [h, ih]

/-- On a response, `call_api` fails exactly when `raise_for_status` raises,
i.e. for a status in 400-599, whatever the body. -/
theorem call_api_response_eq (status : Nat) (body : String) :
    call_api (ReqResult.response status body)
      = if 400 ≤ status ∧ status < 600 then false else true := by
  simp only [call_api, tryBody, raiseForStatus]
  by_cases h : 400 ≤ status ∧ status < 600
  · rw [if_pos h, if_pos h]
  · rw [if_neg h, if_neg h]

/-! ### The claims -/

/-- C1, counterexample: the claim "call_api returns true iff the status is in
the 2xx range" is false at a 301 response — `raise_for_status` does not raise
for 3xx, so `call_api` returns `true` although 301 is not a 2xx status. -/
theorem call_api_2xx_claim_false :
    call_api (ReqResult.response 301 "") = true ∧ ¬ (200 ≤ 301 ∧ 301 ≤ 299) := by
  exact ⟨rfl, by omega⟩

/-- C1 (corrected): `call_api` returns `true` exactly when the response status
is outside the `raise_for_status` error range 400-599 (so 1xx and 3xx statuses
also count as success, not only 2xx); it returns `false` on timeout, on
connection failure, and on any other request error; and the response body
never influences the result. -/
theorem call_api_success_iff (status : Nat) (body msg : String) :
    (call_api (ReqResult.response status body) = true ↔ (status < 400 ∨ 600 ≤ status))
      ∧ call_api ReqResult.timeout = false
      ∧ call_api (ReqResult.connectionError msg) = false
      ∧ call_api (ReqResult.otherError msg) = false
      ∧ call_api (ReqResult.response status body) = call_api (ReqResult.response status "") := by
  refine ⟨?_, rfl, rfl, rfl, rfl⟩
  rw [call_api_response_eq]
  by_cases h : 400 ≤ status ∧ status < 600
  · rw [if_pos h]
    exact ⟨fun hb => absurd hb (by decide), fun hc => absurd hc (by omega)⟩
  · rw [if_neg h]
    exact ⟨fun _ => by omega, fun _ => rfl⟩

/-- C1, witness: a 204 response succeeds, a 500 response fails. -/
theorem call_api_success_iff_witness :
    call_api (ReqResult.response 204 "ignored") = true
      ∧ call_api (ReqResult.response 500 "") = false := by
  constructor
  · exact (call_api_success_iff 204 "ignored" "").1.mpr (by omega)
  · have h := (call_api_success_iff 500 "" "").1
    cases hb : call_api (ReqResult.response 500 "") with
    | false => rfl
    | true => have := h.mp hb; omega

/-- C2 (code bug): the claim says that once midnight has passed during
probing/backoff, the recomputed remaining time is ≤ 0 and the cycle is
abandoned with a warning.  The code's recomputation
`seconds_until_next_midnight()` measures to the *next* midnight from the
current instant, so it is strictly positive even after the cycle's target
midnight has passed: at the failing input — every probe failing and the
backoff decision happening at 00:00:01 of the following day (86401 s after the
cycle's midnight) — the remaining time comes out as 86399 s > 0, and the loop
sleeps `min(RETRY_INTERVAL, 86399 s)` and retries into the new day instead of
abandoning: with fuel for two passes it performs two passes and two full
retry sleeps and is still running. -/
theorem midnight_passed_retry_divergence :
    usecUntilNextMidnight 86401000000 = 86399000000
      ∧ (0 : Int) < usecUntilNextMidnight 86401000000
      ∧ runCycle (fun _ _ => false) (fun _ => 86401000000) 3600000000 2 ["https://a.test"] 0
          = ⟨[["https://a.test"], ["https://a.test"]], [3600000000, 3600000000],
             CycleEnd.outOfFuel⟩ := by
  refine ⟨by decide, by decide, by decide⟩

/-- C3 (confirmed): for every current time `t` (μs since an epoch midnight),
`seconds_until_next_midnight` returns a duration `W` with `0 < W ≤ 24 h`, and
`t + W` is exactly the next local midnight: it is a day boundary, it lies
strictly after `t`, and no earlier day boundary lies strictly after `t`.
In particular the result is never zero or negative, even exactly at
midnight (`t` a multiple of a day gives `W` = a full day). -/
theorem seconds_until_next_midnight_spec (t : Nat) :
    0 < usecUntilNextMidnight t
      ∧ usecUntilNextMidnight t ≤ (usecPerDay : Int)
      ∧ ((t : Int) + usecUntilNextMidnight t) % (usecPerDay : Int) = 0
      ∧ (∀ m : Int, (t : Int) < m → m % (usecPerDay : Int) = 0 →
          (t : Int) + usecUntilNextMidnight t ≤ m) :=
  ⟨usec_pos t, usec_le_day t, usec_add_mod t, fun m hlt hm => usec_next t m hlt hm⟩

/-- C3, witness: at `t = 0` (exactly midnight) the result is positive and
`t + W` is at most the next day boundary. -/
theorem seconds_until_next_midnight_spec_witness :
    0 < usecUntilNextMidnight 0
      ∧ (0 : Int) + usecUntilNextMidnight 0 ≤ (usecPerDay : Int) :=
  ⟨(seconds_until_next_midnight_spec 0).1,
   (seconds_until_next_midnight_spec 0).2.2.2 (usecPerDay : Int) (by decide) (by decide)⟩

/-- C4 (confirmed): within a daily cycle entered with the configured list
(line 75 resets `pending` to the full `API_URLS` at each new cycle), the first
pass attempts all of it in configured order; every later pass attempts exactly
the subset of the previous pass that failed, in the same relative order; every
pass's list is a subsequence of the configured list; and the attempted lists
are monotonically non-increasing in size. -/
theorem pending_passes_spec (ok : Nat → String → Bool) (nowAt : Nat → Nat)
    (retryUs : Int) (fuel : Nat) (urls : List String) :
    (urls ≠ [] → fuel ≠ 0 →
        (runCycle ok nowAt retryUs fuel urls 0).passes[0]? = some urls)
      ∧ (∀ (j : Nat) (a b : List String),
          (runCycle ok nowAt retryUs fuel urls 0).passes[j]? = some a →
          (runCycle ok nowAt retryUs fuel urls 0).passes[j + 1]? = some b →
          b = stillFailing (ok j) a)
      ∧ (∀ (j : Nat) (a : List String),
          (runCycle ok nowAt retryUs fuel urls 0).passes[j]? = some a →
          List.Sublist a urls)
      ∧ (∀ (j : Nat) (a b : List String),
          (runCycle ok nowAt retryUs fuel urls 0).passes[j]? = some a →
          (runCycle ok nowAt retryUs fuel urls 0).passes[j + 1]? = some b →
          b.length ≤ a.length) := by
  refine ⟨fun hp hf => runCycle_zero_some ok nowAt retryUs fuel urls 0 hp hf, ?_, ?_, ?_⟩
  · intro j a b h1 h2
    simpa using runCycle_succ_eq ok nowAt retryUs fuel urls 0 j a b h1 h2
  · intro j a h
    exact runCycle_sublist ok nowAt retryUs fuel urls 0 j a h
  · intro j a b h1 h2
    have hb := runCycle_succ_eq ok nowAt retryUs fuel urls 0 j a b h1 h2
    rw [hb]
    simpa [stillFailing] using List.length_filter_le _ a

/-- C4, witness: with `a` succeeding and `b` failing on the first pass, the
second pass attempts exactly the failures of the first. -/
theorem pending_passes_spec_witness :
    (["b"] : List String)
      = stillFailing (fun u => (0 : Nat) != 0 || u == "a") ["a", "b"] :=
  (pending_passes_spec (fun i u => i != 0 || u == "a") (fun _ => 3600000000)
      3600000000 4 ["a", "b"]).2.1 0 ["a", "b"] ["b"] (by decide) (by decide)

/-- C5 (confirmed): entering a cycle with a non-empty endpoint list on which
every probe of the first pass succeeds gives exactly one probing pass — the
full list — no retry sleep, an `allSuccess` stop (the line-88 break to the
midnight wait), and an empty pending set after the pass. -/
theorem all_success_single_pass (ok : Nat → String → Bool) (nowAt : Nat → Nat)
    (retryUs : Int) (fuel : Nat) (urls : List String) (i : Nat)
    (hurls : urls ≠ []) (hfuel : fuel ≠ 0) (hok : ∀ u ∈ urls, ok i u = true) :
    runCycle ok nowAt retryUs fuel urls i = ⟨[urls], [], CycleEnd.allSuccess⟩
      ∧ stillFailing (ok i) urls = [] := by
  have hstill : stillFailing (ok i) urls = [] :=
    List.filter_eq_nil_iff.mpr (fun a ha => by simp [hok a ha])
  refine ⟨?_, hstill⟩
  cases fuel with
  | zero => exact absurd rfl hfuel
  | succ fuel =>
    rw [runCycle, if_neg (by simpa [List.isEmpty_iff] using hurls),
      if_pos (by rw [hstill]; rfl)]

/-- C5, witness: two endpoints, both succeeding. -/
theorem all_success_single_pass_witness :
    runCycle (fun _ _ => true) (fun _ => 0) 3600000000 3 ["x", "y"] 0
      = ⟨[["x", "y"]], [], CycleEnd.allSuccess⟩ :=
  (all_success_single_pass (fun _ _ => true) (fun _ => 0) 3600000000 3 ["x", "y"] 0
      (by decide) (by decide) (fun u _ => rfl)).1

/-- C6 (confirmed): every retry wait actually slept by a cycle equals
`min(configured_retry_interval, remaining_time_to_midnight)` recomputed at
that backoff decision, and it is strictly positive whenever the configured
retry interval is positive (the remaining time to midnight always is). -/
theorem retry_wait_spec (ok : Nat → String → Bool) (nowAt : Nat → Nat) (retryUs : Int)
    (fuel : Nat) (urls : List String) (i j : Nat) (w : Int)
    (hw : (runCycle ok nowAt retryUs fuel urls i).sleeps[j]? = some w) :
    w = min retryUs (usecUntilNextMidnight (nowAt (i + j)))
      ∧ (0 < retryUs → 0 < w) := by
  have h := runCycle_sleeps_eq ok nowAt retryUs fuel urls i j w hw
  refine ⟨h, fun hr => ?_⟩
  rw [h]
  exact lt_min hr (usec_pos _)

/-- C6, witness: a failing endpoint probed at 01:00 sleeps the full one-hour
retry interval, and that wait is positive. -/
theorem retry_wait_spec_witness :
    (3600000000 : Int) = min 3600000000 (usecUntilNextMidnight 3600000000)
      ∧ (0 : Int) < 3600000000 := by
  have h := retry_wait_spec (fun _ _ => false) (fun _ => 3600000000) 3600000000 2
      ["u"] 0 0 3600000000 (by decide)
  exact ⟨h.1, h.2 (by decide)⟩

/-- C7 (confirmed): the endpoint list is the comma-separated entries of
`API_URLS` with surrounding whitespace stripped and empty (or whitespace-only)
entries discarded — equal to the spec-worded `specUrlEntries`, and containing
no empty entry — defaulting to the single placeholder URL when unset;
`LOG_FILE` defaults to `ping_log.txt`, `RETRY_INTERVAL_SECONDS` to 3600 and
`REQUEST_TIMEOUT_SECONDS` to 30.  (All four are pure functions of the initial
environment, read once at startup.) -/
theorem config_loading_spec (raw : String) :
    apiUrlsFrom (some raw) = specUrlEntries raw
      ∧ (∀ u, u ∈ apiUrlsFrom (some raw) → u ≠ "")
      ∧ apiUrlsFrom none = [defaultRawUrls]
      ∧ logFileFrom none = "ping_log.txt"
      ∧ retryIntervalFrom none = some 3600
      ∧ requestTimeoutFrom none = some 30 := by
  refine ⟨filter_strip_foldr (pySplit raw.data), ?_, by decide, rfl, rfl, rfl⟩
  intro u hu h
  simp only [apiUrlsFrom, Option.getD, parseUrls, List.mem_map, List.mem_filter] at hu
  obtain ⟨v, ⟨hv, hne⟩, rfl⟩ := hu
  have hv0 : v = [] := congrArg String.data h
  rw [hv0] at hne
  simp at hne

/-- C7, witness: a raw value with whitespace and an empty entry parses as the
spec describes, and a kept entry is non-empty. -/
theorem config_loading_spec_witness :
    apiUrlsFrom (some " a ,, b ") = specUrlEntries " a ,, b "
      ∧ ("a" : String) ≠ "" :=
  ⟨(config_loading_spec " a ,, b ").1,
   (config_loading_spec " a ,, b ").2.1 "a" (by decide)⟩

/-- C8 (confirmed): every raised outcome of the try-block is caught by one of
the four `except` clauses and mapped to `return False` — no exception escapes
the probe step — and, with every probe failing, the scheduler loop is still
running whatever the simulation bound: it never stops because endpoints
failed. -/
theorem probe_errors_nonfatal :
    (∀ (r : ReqResult) (e : ReqError), tryBody r = Except.error e → call_api r = false)
      ∧ (∀ (ok : Nat → String → Bool) (nowAt : Nat → Nat) (retryUs : Int) (fuel : Nat)
          (urls : List String) (i : Nat),
          (∀ n u, ok n u = false) → urls ≠ [] →
          (runCycle ok nowAt retryUs fuel urls i).ending = CycleEnd.outOfFuel) := by
  constructor
  · intro r e h
    unfold call_api
    rw [h]
    cases e <;> rfl
  · intro ok nowAt retryUs fuel urls i hok hurls
    exact runCycle_all_fail ok nowAt retryUs hok fuel urls i hurls

/-- C8, witness: a timeout is caught and yields `false`, and an all-failing
endpoint list leaves the loop still running after three simulated passes. -/
theorem probe_errors_nonfatal_witness :
    call_api ReqResult.timeout = false
      ∧ (runCycle (fun _ _ => false) (fun _ => 0) 3600000000 3 ["u"] 0).ending
          = CycleEnd.outOfFuel :=
  ⟨probe_errors_nonfatal.1 ReqResult.timeout ReqError.timeout rfl,
   probe_errors_nonfatal.2 (fun _ _ => false) (fun _ => 0) 3600000000 3 ["u"] 0
     (fun _ _ => rfl) (by decide)⟩

/-- C9 (confirmed): line 37 issues every GET with
`timeout=REQUEST_TIMEOUT_SECONDS` — a bounded, configured value, never `None`
— so under the library's timeout contract every probe attempt occupies at most
the configured timeout, and an endpoint slower than the timeout produces a
`Timeout` failure (`call_api` returns `false`) rather than an indefinite
block. -/
theorem probe_bounded_timeout (cfgTimeoutS naturalUs : Nat) (r : ReqResult) :
    probeElapsedUs cfgTimeoutS naturalUs ≤ cfgTimeoutS * 1000000
      ∧ (cfgTimeoutS * 1000000 < naturalUs →
          call_api (getWithTimeout (cfgTimeoutS * 1000000) naturalUs r) = false) := by
  constructor
  · exact Nat.min_le_right _ _
  · intro h
    rw [getWithTimeout, if_pos h]
    rfl

/-- C9, witness: with the default 30 s timeout, a probe against an endpoint
that would take much longer stays within the timeout and fails. -/
theorem probe_bounded_timeout_witness :
    probeElapsedUs 30 99999999999 ≤ 30 * 1000000
      ∧ call_api (getWithTimeout (30 * 1000000) 99999999999 (ReqResult.response 200 "")) = false :=
  ⟨(probe_bounded_timeout 30 99999999999 (ReqResult.response 200 "")).1,
   (probe_bounded_timeout 30 99999999999 (ReqResult.response 200 "")).2 (by decide)⟩

/-- C10 (confirmed): `seconds_until_next_midnight` is strictly positive (and
at most one day) at every instant, so the line-94 test `time_to_midnight <= 0`
is never true and the abandonment branch is unreachable — every simulated
cycle either stops with all successes or is still running — and after midnight
passes mid-retry the recomputed remaining time refers to the following
midnight: added to the current instant it lands on a day boundary strictly
ahead. -/
theorem abandon_branch_unreachable (t : Nat) (ok : Nat → String → Bool)
    (nowAt : Nat → Nat) (retryUs : Int) (fuel : Nat) (urls : List String) (i : Nat) :
    (0 < usecUntilNextMidnight t ∧ usecUntilNextMidnight t ≤ (usecPerDay : Int))
      ∧ ((runCycle ok nowAt retryUs fuel urls i).ending = CycleEnd.allSuccess
          ∨ (runCycle ok nowAt retryUs fuel urls i).ending = CycleEnd.outOfFuel)
      ∧ ((t : Int) + usecUntilNextMidnight t) % (usecPerDay : Int) = 0
      ∧ (t : Int) < (t : Int) + usecUntilNextMidnight t :=
  ⟨⟨usec_pos t, usec_le_day t⟩, runCycle_ending ok nowAt retryUs fuel urls i,
   usec_add_mod t, by have := usec_pos t; omega⟩

end Ping
